import Mathlib

/-!
Verification of the consensus aggregation / ranking engine, the resilient
request executor, the batch orchestrator, the resource budget allocator and
the comment-tree extractor of the research MCP server.

The TypeScript sources are shallowly embedded: JavaScript strings are modeled
as Lean `String` (a `List Char` wrapper), JS `Map` as an insertion-ordered
association list, JS numbers as `ℚ`/`ℕ`/`ℤ` as appropriate (with `ℕ∞` where a
JS division by zero can produce `Infinity`), promises as explicit outcome
values, and `Array.prototype.sort` (guaranteed stable by the ECMAScript spec)
as stable insertion sort by the comparator's preorder.
-/

namespace VibeSpec

/-! ## JavaScript string primitives -/

/-- ASCII lowercasing of one character, as performed by
`String.prototype.toLowerCase` on ASCII input (the only input the sources
feed it). -/
def jsCharToLower (c : Char) : Char :=
  if 'A' ≤ c ∧ c ≤ 'Z' then Char.ofNat (c.toNat + 32) else c

/-- `s.toLowerCase()` on a character list. -/
def jsToLower (s : List Char) : List Char := s.map jsCharToLower

/-- `s.toLowerCase()` on a `String`. -/
def jsToLowerS (s : String) : String := ⟨jsToLower s.data⟩

/-- `s.replace(/\/$/, '')`: removes a single trailing slash, if present. -/
def stripTrailingSlash (l : List Char) : List Char :=
  if l.getLast? = some '/' then l.dropLast else l

/-- Contiguous-substring test on character lists. -/
def hasSubstring : List Char → List Char → Bool
  | [], sub => sub == []
  | a :: rest, sub => ((a :: rest).take sub.length == sub) || hasSubstring rest sub

/-- `a.includes(b)` on JS strings: substring test. -/
def jsIncludes (s sub : String) : Bool := hasSubstring s.data sub.data

/-! ## WHATWG URL parsing (platform primitive)

`new URL(s)` is a platform builtin.  It is modeled here for the http/https
scheme subset actually exercised (no userinfo, no percent-decoding): the
scheme is matched case-insensitively, the hostname is lowercased and must be
nonempty, the pathname defaults to "/" and the search keeps its leading "?".
A string without a scheme makes the constructor throw, modeled as `none`. -/

structure UrlParts where
  hostname : List Char
  pathname : List Char
  search : List Char

def parseAfterScheme (rest : List Char) : Option UrlParts :=
  let authority := rest.takeWhile (fun c => !(c == '/' || c == '?' || c == '#'))
  let hostname := jsToLower (authority.takeWhile (fun c => !(c == ':')))
  if hostname = [] then none
  else
    let afterAuth := rest.drop authority.length
    let pathAndQuery := afterAuth.takeWhile (fun c => !(c == '#'))
    let path := pathAndQuery.takeWhile (fun c => !(c == '?'))
    let query := pathAndQuery.drop path.length
    some { hostname := hostname
           pathname := if path = [] then ['/'] else path
           search := if query = ['?'] then [] else query }

def jsUrlParse (s : List Char) : Option UrlParts :=
  if (s.take 7).map jsCharToLower = "http://".data then parseAfterScheme (s.drop 7)
  else if (s.take 8).map jsCharToLower = "https://".data then parseAfterScheme (s.drop 8)
  else none

/-- `normalizeUrl` from `src/utils/url-aggregator.ts`:
strips a leading `www.`, a trailing slash from the path (restoring "/" when
the path becomes empty), keeps the query string, lowercases, and on a parse
failure falls back to lowercasing and stripping one trailing slash. -/
def normalizeUrl (url : List Char) : List Char :=
  match jsUrlParse url with
  | some parsed =>
      let host := if parsed.hostname.take 4 = "www.".data
                  then parsed.hostname.drop 4 else parsed.hostname
      let path0 := stripTrailingSlash parsed.pathname
      let path := if path0 = [] then ['/'] else path0
      jsToLower (host ++ path ++ parsed.search)
  | none => stripTrailingSlash (jsToLower url)

/-- `normalizeUrl` on `String`. -/
def normalizeUrlS (s : String) : String := ⟨normalizeUrl s.data⟩

/-! ## JS `Map` as an insertion-ordered association list -/

/-- `map.get(k)`. -/
def jsMapGet (m : List (String × α)) (k : String) : Option α :=
  (m.find? (fun e => e.fst == k)).map Prod.snd

/-- `map.set(k, v)`: overwrites in place (keeping the key's original
insertion position) or appends a new entry at the end. -/
def jsMapSet : List (String × α) → String → α → List (String × α)
  | [], k, v => [(k, v)]
  | (k', v') :: rest, k, v =>
      if k' = k then (k', v) :: rest else (k', v') :: jsMapSet rest k v

/-! ## CTR weights (`src/config/index.ts`) -/

/-- `CTR_WEIGHTS`: the position → click-through weight lookup table. -/
def ctrWeightTable : ℕ → Option ℚ
  | 1 => some 100
  | 2 => some 60
  | 3 => some (4889 / 100)
  | 4 => some (3333 / 100)
  | 5 => some (2889 / 100)
  | 6 => some (2644 / 100)
  | 7 => some (2444 / 100)
  | 8 => some (1778 / 100)
  | 9 => some (1333 / 100)
  | 10 => some (1256 / 100)
  | _ => none

/-- `getCtrWeight` from `src/utils/url-aggregator.ts`.  Positions are the
1-based integer ranks produced by the search clients. -/
def getCtrWeight (position : ℕ) : ℚ :=
  if 1 ≤ position ∧ position ≤ 10 then (ctrWeightTable position).getD 0
  else max 0 (10 - ((position : ℚ) - 10) * (1 / 2))

/-! ## Web-search aggregation (`src/utils/url-aggregator.ts`) -/

/-- `SearchResult` from `src/clients/search.ts`. -/
structure SearchResult where
  title : String
  link : String
  snippet : String
  date : Option String := none
  position : ℕ
deriving DecidableEq, Inhabited

/-- `KeywordSearchResult` from `src/clients/search.ts`. -/
structure KeywordSearchResult where
  keyword : String
  results : List SearchResult
  totalResults : ℕ
  related : List String
deriving DecidableEq, Inhabited

/-- `AggregatedUrl` (internal accumulator of the aggregator). -/
structure AggregatedUrl where
  url : String
  title : String
  snippet : String
  frequency : ℕ
  positions : List ℕ
  queries : List String
  bestPosition : ℕ
  totalScore : ℚ
deriving DecidableEq, Inhabited

/-- `RankedUrl` (public output of the aggregator). -/
structure RankedUrl where
  url : String
  title : String
  snippet : String
  rank : ℕ
  score : ℚ
  frequency : ℕ
  positions : List ℕ
  queries : List String
  bestPosition : ℕ
  isConsensus : Bool
deriving DecidableEq, Inhabited

/-- `AggregationResult`. -/
structure AggregationResult where
  rankedUrls : List RankedUrl
  totalUniqueUrls : ℕ
  totalQueries : ℕ
  frequencyThreshold : ℕ
  thresholdNote : Option String
deriving DecidableEq, Inhabited

/-- The `existing` branch of the merge loop in `aggregateResults`: bump the
frequency, append position and keyword, update the best position and total
score, and replace title/snippet when the new position beats
`positions[0]` (the first recorded position — the mutation happens after the
push, which does not change index 0 of a nonempty list). -/
def mergeOccurrence (keyword : String) (r : SearchResult) (e : AggregatedUrl) :
    AggregatedUrl :=
  let positions := e.positions ++ [r.position]
  let replaceMeta := r.position < positions.headD 0
  { url := e.url
    title := if replaceMeta then r.title else e.title
    snippet := if replaceMeta then r.snippet else e.snippet
    frequency := e.frequency + 1
    positions := positions
    queries := e.queries ++ [keyword]
    bestPosition := min e.bestPosition r.position
    totalScore := e.totalScore + getCtrWeight r.position }

/-- The `else` branch of the merge loop: a fresh `AggregatedUrl`. -/
def newAggregated (keyword : String) (r : SearchResult) : AggregatedUrl :=
  { url := r.link
    title := r.title
    snippet := r.snippet
    frequency := 1
    positions := [r.position]
    queries := [keyword]
    bestPosition := r.position
    totalScore := getCtrWeight r.position }

/-- One iteration of the inner loop of `aggregateResults`. -/
def insertResult (keyword : String) (m : List (String × AggregatedUrl))
    (r : SearchResult) : List (String × AggregatedUrl) :=
  let key := normalizeUrlS r.link
  match jsMapGet m key with
  | some e => jsMapSet m key (mergeOccurrence keyword r e)
  | none => jsMapSet m key (newAggregated keyword r)

/-- `aggregateResults`: flattens all searches into the URL map. -/
def aggregateResults (searches : List KeywordSearchResult) :
    List (String × AggregatedUrl) :=
  searches.foldl (fun m s => s.results.foldl (insertResult s.keyword) m) []

/-- `filterByFrequency`: map values (in insertion order) with
`frequency >= minFrequency`. -/
def filterByFrequency (m : List (String × AggregatedUrl)) (minFrequency : ℕ) :
    List AggregatedUrl :=
  (m.map Prod.snd).filter (fun u => minFrequency ≤ u.frequency)

/-- The comparator `(a, b) => b.totalScore - a.totalScore` orders by
`totalScore` descending; `Array.prototype.sort` is stable, modeled as stable
insertion sort by the comparator's preorder. -/
def sortByScoreDesc (l : List AggregatedUrl) : List AggregatedUrl :=
  l.insertionSort (fun a b => b.totalScore ≤ a.totalScore)

/-- The body of `sorted.map((url, index) => ...)` in
`calculateWeightedScores`. -/
def mkRanked (maxScore : ℚ) (index : ℕ) (u : AggregatedUrl) : RankedUrl :=
  { url := u.url
    title := u.title
    snippet := u.snippet
    rank := index + 1
    score := if 0 < maxScore then u.totalScore / maxScore * 100 else 0
    frequency := u.frequency
    positions := u.positions
    queries := u.queries
    bestPosition := u.bestPosition
    isConsensus := decide (3 ≤ u.frequency) }

/-- Indexed map used to model `sorted.map((url, index) => ...)`. -/
def rankFrom (maxScore : ℚ) (index : ℕ) : List AggregatedUrl → List RankedUrl
  | [] => []
  | u :: us => mkRanked maxScore index u :: rankFrom maxScore (index + 1) us

/-- `calculateWeightedScores`. -/
def calculateWeightedScores (urls : List AggregatedUrl) : List RankedUrl :=
  if urls = [] then []
  else
    let sorted := sortByScoreDesc urls
    let maxScore := (sorted.headD default).totalScore
    rankFrom maxScore 0 sorted

/-- The note text attached when the web threshold is lowered. -/
def thresholdNoteText (threshold : ℕ) : String :=
  "Note: Frequency filter lowered to ≥" ++ toString threshold ++
    " due to result diversity."

/-- The `for (const threshold of thresholds)` loop of `aggregateAndRank`:
returns the last computed ranked list together with the threshold at which
the loop broke (`none` when the loop ran out, leaving the initial
`usedThreshold = 3` and no note). -/
def webThresholdFold (urlMap : List (String × AggregatedUrl))
    (minConsensusUrls : ℕ) :
    List ℕ → List RankedUrl → List RankedUrl × Option ℕ
  | [], acc => (acc, none)
  | t :: rest, _ =>
      let ranked := calculateWeightedScores (filterByFrequency urlMap t)
      if minConsensusUrls ≤ ranked.length ∨ t = 1 then (ranked, some t)
      else webThresholdFold urlMap minConsensusUrls rest ranked

/-- `aggregateAndRank`: full pipeline with fallback thresholds 3, 2, 1. -/
def aggregateAndRank (searches : List KeywordSearchResult)
    (minConsensusUrls : ℕ := 5) : AggregationResult :=
  let urlMap := aggregateResults searches
  let outcome := webThresholdFold urlMap minConsensusUrls [3, 2, 1] []
  { rankedUrls := outcome.fst
    totalUniqueUrls := urlMap.length
    totalQueries := searches.length
    frequencyThreshold := outcome.snd.getD 3
    thresholdNote :=
      match outcome.snd with
      | some t => if t < 3 then some (thresholdNoteText t) else none
      | none => none }

/-! ## Reddit-specific aggregation (`src/utils/url-aggregator.ts`) -/

/-- `RedditSearchResult` from `src/clients/search.ts`. -/
structure RedditSearchResult where
  title : String
  url : String
  snippet : String
  date : Option String := none
deriving DecidableEq, Inhabited

/-- `AggregatedRedditUrl`. -/
structure AggregatedRedditUrl where
  url : String
  title : String
  snippet : String
  date : Option String
  frequency : ℕ
  positions : List ℕ
  queries : List String
  bestPosition : ℕ
  totalScore : ℚ
deriving DecidableEq, Inhabited

/-- `RankedRedditUrl`. -/
structure RankedRedditUrl where
  url : String
  title : String
  snippet : String
  date : Option String
  rank : ℕ
  score : ℚ
  frequency : ℕ
  positions : List ℕ
  queries : List String
  bestPosition : ℕ
  isConsensus : Bool
deriving DecidableEq, Inhabited

/-- `RedditAggregationResult`. -/
structure RedditAggregationResult where
  rankedUrls : List RankedRedditUrl
  totalUniqueUrls : ℕ
  totalQueries : ℕ
  frequencyThreshold : ℕ
  thresholdNote : Option String
deriving DecidableEq, Inhabited

/-- The `existing` branch of the merge loop in `aggregateRedditResults`
(same `positions[0]` comparison as the web variant, additionally copying the
date). -/
def mergeRedditOccurrence (query : String) (position : ℕ)
    (r : RedditSearchResult) (e : AggregatedRedditUrl) : AggregatedRedditUrl :=
  let positions := e.positions ++ [position]
  let replaceMeta := position < positions.headD 0
  { url := e.url
    title := if replaceMeta then r.title else e.title
    snippet := if replaceMeta then r.snippet else e.snippet
    date := if replaceMeta then r.date else e.date
    frequency := e.frequency + 1
    positions := positions
    queries := e.queries ++ [query]
    bestPosition := min e.bestPosition position
    totalScore := e.totalScore + getCtrWeight position }

/-- A fresh `AggregatedRedditUrl`. -/
def newRedditAggregated (query : String) (position : ℕ)
    (r : RedditSearchResult) : AggregatedRedditUrl :=
  { url := r.url
    title := r.title
    snippet := r.snippet
    date := r.date
    frequency := 1
    positions := [position]
    queries := [query]
    bestPosition := position
    totalScore := getCtrWeight position }

/-- One iteration of the indexed inner loop of `aggregateRedditResults`
(`position = i + 1`). -/
def insertRedditResult (query : String)
    (m : List (String × AggregatedRedditUrl)) (ir : ℕ × RedditSearchResult) :
    List (String × AggregatedRedditUrl) :=
  let position := ir.fst + 1
  let key := normalizeUrlS ir.snd.url
  match jsMapGet m key with
  | some e => jsMapSet m key (mergeRedditOccurrence query position ir.snd e)
  | none => jsMapSet m key (newRedditAggregated query position ir.snd)

/-- `aggregateRedditResults`: the `Map<string, RedditSearchResult[]>` input
is modeled as an insertion-ordered list of key–value pairs. -/
def aggregateRedditResults
    (searches : List (String × List RedditSearchResult)) :
    List (String × AggregatedRedditUrl) :=
  searches.foldl (fun m qr => qr.snd.enum.foldl (insertRedditResult qr.fst) m) []

/-- `filterRedditByFrequency`. -/
def filterRedditByFrequency (m : List (String × AggregatedRedditUrl))
    (minFrequency : ℕ) : List AggregatedRedditUrl :=
  (m.map Prod.snd).filter (fun u => minFrequency ≤ u.frequency)

/-- Stable descending sort by `totalScore` (Reddit variant). -/
def sortRedditByScoreDesc (l : List AggregatedRedditUrl) :
    List AggregatedRedditUrl :=
  l.insertionSort (fun a b => b.totalScore ≤ a.totalScore)

/-- The body of `sorted.map((url, index) => ...)` in
`calculateRedditWeightedScores` (the Reddit consensus cut-off is 2). -/
def mkRedditRanked (maxScore : ℚ) (index : ℕ) (u : AggregatedRedditUrl) :
    RankedRedditUrl :=
  { url := u.url
    title := u.title
    snippet := u.snippet
    date := u.date
    rank := index + 1
    score := if 0 < maxScore then u.totalScore / maxScore * 100 else 0
    frequency := u.frequency
    positions := u.positions
    queries := u.queries
    bestPosition := u.bestPosition
    isConsensus := decide (2 ≤ u.frequency) }

/-- Indexed map for the Reddit ranking. -/
def redditRankFrom (maxScore : ℚ) (index : ℕ) :
    List AggregatedRedditUrl → List RankedRedditUrl
  | [] => []
  | u :: us => mkRedditRanked maxScore index u :: redditRankFrom maxScore (index + 1) us

/-- `calculateRedditWeightedScores`. -/
def calculateRedditWeightedScores (urls : List AggregatedRedditUrl) :
    List RankedRedditUrl :=
  if urls = [] then []
  else
    let sorted := sortRedditByScoreDesc urls
    let maxScore := (sorted.headD default).totalScore
    redditRankFrom maxScore 0 sorted

/-- The note text attached when the Reddit threshold is lowered. -/
def redditThresholdNoteText (threshold : ℕ) : String :=
  "Note: Frequency filter set to ≥" ++ toString threshold ++
    " due to result diversity across queries."

/-- The threshold loop of `aggregateAndRankReddit`. -/
def redditThresholdFold (urlMap : List (String × AggregatedRedditUrl))
    (minConsensusUrls : ℕ) :
    List ℕ → List RankedRedditUrl → List RankedRedditUrl × Option ℕ
  | [], acc => (acc, none)
  | t :: rest, _ =>
      let ranked := calculateRedditWeightedScores (filterRedditByFrequency urlMap t)
      if minConsensusUrls ≤ ranked.length ∨ t = 1 then (ranked, some t)
      else redditThresholdFold urlMap minConsensusUrls rest ranked

/-- `aggregateAndRankReddit`: fallback thresholds 2, 1; the note is attached
only when the threshold dropped below 2 and more than one query ran. -/
def aggregateAndRankReddit
    (searches : List (String × List RedditSearchResult))
    (minConsensusUrls : ℕ := 3) : RedditAggregationResult :=
  let urlMap := aggregateRedditResults searches
  let totalQueries := searches.length
  let outcome := redditThresholdFold urlMap minConsensusUrls [2, 1] []
  { rankedUrls := outcome.fst
    totalUniqueUrls := urlMap.length
    totalQueries := totalQueries
    frequencyThreshold := outcome.snd.getD 2
    thresholdNote :=
      match outcome.snd with
      | some t =>
          if t < 2 ∧ 1 < totalQueries then some (redditThresholdNoteText t)
          else none
      | none => none }

/-! ## Resource budget allocators -/

/-- `CommentAllocation` from `src/clients/reddit.ts`.  The two per-post
fields live in `ℕ∞` because JS division by zero produces `Infinity`. -/
structure CommentAllocation where
  totalBudget : ℕ
  perPostBase : ℕ∞
  perPostCapped : ℕ∞
  redistributed : Bool
deriving DecidableEq

/-- `calculateCommentAllocation` (`REDDIT.MAX_COMMENT_BUDGET = 1000`,
`REDDIT.MAX_COMMENTS_PER_POST = 200`).  `Math.floor(1000 / 0)` is
`Infinity` in JS, modeled as `⊤`; there is no zero-target guard. -/
def calculateCommentAllocation (postCount : ℕ) : CommentAllocation :=
  let totalBudget : ℕ := 1000
  let perPostBase : ℕ∞ :=
    if postCount = 0 then ⊤ else ((totalBudget / postCount : ℕ) : ℕ∞)
  { totalBudget := totalBudget
    perPostBase := perPostBase
    perPostCapped := min perPostBase 200
    redistributed := false }

/-- `calculateTokenAllocation` from `src/tools/research.ts`
(`SCRAPER.MAX_TOKENS_BUDGET = 32000`); guards `urlCount <= 0` by returning
the full budget. -/
def calculateTokenAllocation (urlCount : ℕ) : ℕ :=
  if urlCount = 0 then 32000 else 32000 / urlCount

/-! ## Reddit client data model (`src/clients/reddit.ts`) -/

/-- `Post` (the `created` timestamp is the epoch-milliseconds number fed to
`new Date`). -/
structure Post where
  title : String
  author : String
  subreddit : String
  body : String
  score : ℤ
  commentCount : ℕ
  url : String
  created : ℤ
  flair : Option String := none
  isNsfw : Bool
  isPinned : Bool
deriving DecidableEq, Inhabited

/-- `Comment`. -/
structure Comment where
  author : String
  body : String
  score : ℤ
  depth : ℕ
  isOP : Bool
deriving DecidableEq, Inhabited

/-- `PostResult`. -/
structure PostResult where
  post : Post
  comments : List Comment
  allocatedComments : ℕ
  actualComments : ℕ
deriving DecidableEq, Inhabited

/-- `BatchPostResult`; errors carry their message string. -/
structure BatchPostResult where
  results : List (String × Except String PostResult)
  batchesProcessed : ℕ
  totalPosts : ℕ
  rateLimitHits : ℕ
  commentAllocation : CommentAllocation

/-! ## Batch orchestrator (`RedditClient.batchGetPosts`) -/

/-- Structural worker for `chunkList`: the fuel only bounds the number of
groups (each group consumes at least one element, so `l.length` fuel is
always enough). -/
def chunkFuel (n : ℕ) : ℕ → List α → List (List α)
  | 0, _ => []
  | _ + 1, [] => []
  | fuel + 1, x :: xs => (x :: xs.take (n - 1)) :: chunkFuel n fuel (xs.drop (n - 1))

/-- The `urls.slice(startIdx, startIdx + BATCH_SIZE)` partition of the loop
over `batchNum`, as consecutive groups of `n`. -/
def chunkList (n : ℕ) (l : List α) : List (List α) := chunkFuel n l.length l

/-- The body of the `for` loop recording one settled outcome into
`allResults` (`st` is the pair of the outcome map and the rate-limit hit
counter): a fulfilled call stores its value, a rejected one stores an error
with the rejection message, bumping the counter when the message mentions
429 or rate limiting. -/
def recordOutcome (st : List (String × Except String PostResult) × ℕ)
    (out : String × Except String PostResult) :
    List (String × Except String PostResult) × ℕ :=
  match out.snd with
  | Except.ok v => (jsMapSet st.fst out.fst (Except.ok v), st.snd)
  | Except.error e =>
      (jsMapSet st.fst out.fst (Except.error e),
       if jsIncludes e "429" || jsIncludes e "rate" then st.snd + 1
       else st.snd)

/-- One group iteration: `Promise.allSettled(batchUrls.map(url =>
this.getPost(url, commentsPerPost)))` followed by recording every outcome. -/
def settleBatch (getPost : String → Except String PostResult)
    (st : List (String × Except String PostResult) × ℕ)
    (batchUrls : List String) :
    List (String × Except String PostResult) × ℕ :=
  (batchUrls.map (fun u => (u, getPost u))).foldl recordOutcome st

/-- `batchGetPosts` (`REDDIT.BATCH_SIZE = 10`).  The per-target operation
`this.getPost(url, commentsPerPost)` performs I/O, so it is abstracted as
the settled outcome `getPost : String → Except String PostResult`
(fulfillment value or rejection message); `Promise.allSettled` of such
promises is a map.  Logging, the inter-batch sleep and the progress
callback have no effect on the returned value and are omitted. -/
def batchGetPosts (getPost : String → Except String PostResult)
    (urls : List String) : BatchPostResult :=
  let totalBatches := (urls.length + 10 - 1) / 10
  let final := (chunkList 10 urls).foldl (settleBatch getPost) ([], 0)
  { results := final.fst
    batchesProcessed := totalBatches
    totalPosts := urls.length
    rateLimitHits := final.snd
    commentAllocation := calculateCommentAllocation urls.length }

/-! ## Error classification (`src/utils/errors.ts`) -/

/-- `StructuredError`; the `code` field holds the `ErrorCode` string
constant. -/
structure StructuredError where
  code : String
  message : String
  retryable : Bool
  statusCode : Option ℕ := none
  cause : Option String := none
deriving DecidableEq, Inhabited

/-- `classifyHttpError`. -/
def classifyHttpError (status : ℕ) (message : String) : StructuredError :=
  match status with
  | 400 => ⟨"INVALID_INPUT", "Bad request", false, some status, none⟩
  | 401 => ⟨"AUTH_ERROR", "Invalid API key", false, some status, none⟩
  | 403 => ⟨"QUOTA_EXCEEDED", "Access forbidden or quota exceeded", false, some status, none⟩
  | 404 => ⟨"NOT_FOUND", "Resource not found", false, some status, none⟩
  | 408 => ⟨"TIMEOUT", "Request timeout", true, some status, none⟩
  | 429 => ⟨"RATE_LIMITED", "Rate limit exceeded", true, some status, none⟩
  | 500 => ⟨"INTERNAL_ERROR", "Server error", true, some status, none⟩
  | 502 => ⟨"SERVICE_UNAVAILABLE", "Bad gateway", true, some status, none⟩
  | 503 => ⟨"SERVICE_UNAVAILABLE", "Service unavailable", true, some status, none⟩
  | 504 => ⟨"TIMEOUT", "Gateway timeout", true, some status, none⟩
  | 510 => ⟨"SERVICE_UNAVAILABLE", "Request canceled", true, some status, none⟩
  | _ =>
      if 500 ≤ status then
        ⟨"SERVICE_UNAVAILABLE", "Server error: " ++ toString status, true, some status, none⟩
      else
        ⟨"UNKNOWN_ERROR", "HTTP " ++ toString status ++ ": " ++ message, false, some status, none⟩

/-- The dynamic properties `classifyError` reads off an arbitrary thrown JS
value: `instanceof DOMException && name === 'AbortError'`, `message`,
`response?.status`, `status`, `code`, `name`, `cause` (pre-stringified) and
`String(error)`. -/
structure JsErrorValue where
  isAbortDomException : Bool := false
  message : Option String := none
  responseStatus : Option ℕ := none
  status : Option ℕ := none
  code : Option String := none
  name : Option String := none
  causeStr : Option String := none
  stringRep : String := "[object Object]"
deriving DecidableEq, Inhabited

/-- `err.message || String(error)`: the empty string is falsy. -/
def jsOrString (a : Option String) (b : String) : String :=
  match a with
  | some s => if s = "" then b else s
  | none => b

/-- `err.response?.status || err.status`, followed by the truthiness test
`if (statusCode)`: `0` is falsy, `none` means falsy. -/
def jsTruthyStatus (a b : Option ℕ) : Option ℕ :=
  match a with
  | some n =>
      if n ≠ 0 then some n
      else match b with
           | some m => if m ≠ 0 then some m else none
           | none => none
  | none =>
      match b with
      | some m => if m ≠ 0 then some m else none
      | none => none

/-- `classifyError` (`null`/`undefined` input modeled as `none`). -/
def classifyError (error : Option JsErrorValue) : StructuredError :=
  match error with
  | none => ⟨"UNKNOWN_ERROR", "An unknown error occurred", false, none, none⟩
  | some err =>
    if err.isAbortDomException then ⟨"TIMEOUT", "Request timed out", true, none, none⟩
    else
      let message := jsOrString err.message err.stringRep
      let statusCode := jsTruthyStatus err.responseStatus err.status
      if err.code == some "ECONNREFUSED" || err.code == some "ENOTFOUND"
          || err.code == some "ECONNRESET" then
        ⟨"NETWORK_ERROR", "Network error: " ++ err.code.getD "", true, none, some message⟩
      else if err.code == some "ECONNABORTED" || err.code == some "ETIMEDOUT"
          || err.name == some "AbortError"
          || jsIncludes (jsToLowerS message) "timeout"
          || jsIncludes (jsToLowerS message) "timed out" then
        ⟨"TIMEOUT", "Request timed out", true, none, some message⟩
      else
        match statusCode with
        | some s => classifyHttpError s message
        | none =>
          if jsIncludes message "API_KEY" || jsIncludes message "api_key"
              || jsIncludes message "Invalid API" then
            ⟨"AUTH_ERROR", "API key missing or invalid", false, none, some message⟩
          else if jsIncludes message "JSON" || jsIncludes message "parse"
              || jsIncludes message "Unexpected token" then
            ⟨"PARSE_ERROR", "Failed to parse response", false, none, some message⟩
          else
            ⟨"UNKNOWN_ERROR", ⟨message.data.take 500⟩, false, none, err.causeStr⟩

/-! ## Resilient request executor (`withRetry`) -/

/-- `RetryOptions` (delays in milliseconds as rationals). -/
structure RetryOptions where
  maxRetries : ℕ
  baseDelayMs : ℚ
  maxDelayMs : ℚ
  retryableStatuses : List ℕ
deriving DecidableEq, Inhabited

/-- `DEFAULT_RETRY_OPTIONS`. -/
def DEFAULT_RETRY_OPTIONS : RetryOptions :=
  { maxRetries := 3
    baseDelayMs := 1000
    maxDelayMs := 30000
    retryableStatuses := [408, 429, 500, 502, 503, 504, 510] }

/-- The tagged result of `withRetry`:
`{success: true, data}` or `{success: false, error, attempts}`. -/
inductive RetryOutcome (T : Type) where
  | success (data : T)
  | failure (error : StructuredError) (attempts : ℕ)
deriving DecidableEq

/-- The initial `lastError` of `withRetry`. -/
def noAttemptsError : StructuredError :=
  ⟨"UNKNOWN_ERROR", "No attempts made", false, none, none⟩

/-- The retry loop of `withRetry`.  `fn attempt` is the settled outcome of
the wrapped operation on that attempt (fulfillment value or thrown JS
value); `fuel` is the number of loop iterations left
(`maxRetries + 1 - attempt`); the last component of the state counts
invocations of the backoff sleep (whose randomized delay plays no role in
the returned value).  The sleep itself is never aborted here: no abort
signal is wired to it in the sources. -/
def withRetryGo (fn : ℕ → Except (Option JsErrorValue) T) (maxRetries : ℕ) :
    ℕ → ℕ → ℕ → StructuredError → RetryOutcome T × ℕ
  | 0, _, sleeps, lastError => (.failure lastError (maxRetries + 1), sleeps)
  | fuel + 1, attempt, sleeps, _ =>
    match fn attempt with
    | .ok d => (.success d, sleeps)
    | .error e =>
      let lastError := classifyError e
      if lastError.retryable = false then (.failure lastError (attempt + 1), sleeps)
      else if maxRetries ≤ attempt then (.failure lastError (attempt + 1), sleeps)
      else withRetryGo fn maxRetries fuel (attempt + 1) (sleeps + 1) lastError

/-- `withRetry fn opts`: the outcome together with the number of backoff
sleeps performed. -/
def withRetry (fn : ℕ → Except (Option JsErrorValue) T) (opts : RetryOptions) :
    RetryOutcome T × ℕ :=
  withRetryGo fn opts.maxRetries (opts.maxRetries + 1) 0 0 noAttemptsError

/-! ## Comment extraction (`RedditClient.extractComments`) -/

/-- One element of a Reddit comment listing: `kind`, `data.author`
(`none` models a missing or empty author, both falsy), `data.body`,
`data.score` (missing score reads as 0 everywhere it is used, so it is kept
as a plain integer) and `data.replies?.data?.children` (the empty list
models an absent `replies`, observationally equivalent since recursing into
an empty children array is a no-op). -/
inductive RTree where
  | node (kind : String) (author : Option String) (body : Option String)
      (score : ℤ) (replies : List RTree)

/-- `(b.data?.score || 0) - (a.data?.score || 0)` comparator key. -/
def RTree.score : RTree → ℤ
  | .node _ _ _ s _ => s

/-- `[...items].sort((a, b) => (b.data?.score || 0) - (a.data?.score || 0))`:
stable sort, score descending. -/
def sortTreesByScore (l : List RTree) : List RTree :=
  l.insertionSort (fun a b => RTree.score b ≤ RTree.score a)

/-- The recursive `extract` closure: walks the (sorted) items of one level,
threading the shared `result` accumulator; the early `return` on a full
budget stops the current level, and every level re-checks the budget. -/
def extractWalk (maxComments : ℕ) (opAuthor : String) :
    List RTree → ℕ → List Comment → List Comment
  | [], _, result => result
  | c :: rest, depth, result =>
    if maxComments ≤ result.length then result
    else
      match c with
      | .node kind author body score replies =>
        if !(kind == "t1") || author == none || author == some ""
            || author == some "[deleted]" then
          extractWalk maxComments opAuthor rest depth result
        else
          let result1 := result ++
            [{ author := author.getD ""
               body := body.getD ""
               score := score
               depth := depth
               isOP := author == some opAuthor }]
          let result2 :=
            if replies.isEmpty = false ∧ result1.length < maxComments then
              extractWalk maxComments opAuthor (sortTreesByScore replies)
                (depth + 1) result1
            else result1
          extractWalk maxComments opAuthor rest depth result2
termination_by items _ _ => sizeOf items
decreasing_by
  · simp
  · rename_i _hmax kind author body replies _h1 _h2
    have h := List.Perm.sizeOf_eq_sizeOf
      (List.perm_insertionSort (fun a b => RTree.score b ≤ RTree.score a) replies)
    simp [sortTreesByScore, h]
    omega
  · simp

/-- `extractComments`. -/
def extractComments (children : List RTree) (maxComments : ℕ)
    (opAuthor : String) : List Comment :=
  extractWalk maxComments opAuthor (sortTreesByScore children) 0 []

/-- The comparator preorder of `sortByScoreDesc` is total. -/
instance : IsTotal AggregatedUrl (fun a b => b.totalScore ≤ a.totalScore) :=
  ⟨fun a b => le_total b.totalScore a.totalScore⟩

/-- The comparator preorder of `sortByScoreDesc` is transitive. -/
instance : IsTrans AggregatedUrl (fun a b => b.totalScore ≤ a.totalScore) :=
  ⟨fun _ _ _ h1 h2 => le_trans h2 h1⟩

/-! ## Theorems -/

/-! ### Character-level facts about `jsCharToLower` -/

theorem toNat_charOfNat_of_small {n : ℕ} (h : n < 55296) :
    (Char.ofNat n).toNat = n := by
  simp [Char.ofNat, Nat.isValidChar, h, Char.toNat, Char.ofNatAux,
    UInt32.toNat, UInt32.ofNatCore]

theorem jsCharToLower_toNat_of_upper {c : Char} (h1 : 'A' ≤ c) (h2 : c ≤ 'Z') :
    (jsCharToLower c).toNat = c.toNat + 32 := by
  have hn : c.toNat ≤ 90 := h2
  rw [jsCharToLower, if_pos ⟨h1, h2⟩]
  exact toNat_charOfNat_of_small (by omega)

theorem jsCharToLower_of_not_upper {c : Char} (h : ¬('A' ≤ c ∧ c ≤ 'Z')) :
    jsCharToLower c = c := if_neg h

theorem jsCharToLower_idem (c : Char) :
    jsCharToLower (jsCharToLower c) = jsCharToLower c := by
  by_cases h : 'A' ≤ c ∧ c ≤ 'Z'
  · have ht := jsCharToLower_toNat_of_upper h.1 h.2
    apply jsCharToLower_of_not_upper
    intro h2
    have hz : (jsCharToLower c).toNat ≤ 90 := h2.2
    have h65 : 65 ≤ c.toNat := h.1
    omega
  · rw [jsCharToLower_of_not_upper h, jsCharToLower_of_not_upper h]

/-- A character below `'A'` in code is a fixed point target of lowercasing:
only itself can lowercase to it. -/
theorem eq_of_jsCharToLower_eq_low {c d : Char} (hd : d.toNat < 65)
    (h : jsCharToLower c = d) : c = d := by
  by_cases hc : 'A' ≤ c ∧ c ≤ 'Z'
  · exfalso
    have ht := jsCharToLower_toNat_of_upper hc.1 hc.2
    have hdn : d.toNat = c.toNat + 32 := by rw [← h, ht]
    have h65 : 65 ≤ c.toNat := hc.1
    omega
  · rwa [jsCharToLower_of_not_upper hc] at h

theorem jsToLower_idem (l : List Char) : jsToLower (jsToLower l) = jsToLower l := by
  rw [jsToLower, jsToLower, List.map_map]
  exact List.map_congr_left fun c _ => jsCharToLower_idem c

/-! ### URL normalization on strings without a scheme -/

theorem not_lower_take_eq {l : List Char} (h : ':' ∉ l) {n : ℕ}
    {pre : List Char} (hpre : ':' ∈ pre) :
    ¬((l.take n).map jsCharToLower = pre) := by
  intro heq
  have hmem : ':' ∈ (l.take n).map jsCharToLower := heq ▸ hpre
  obtain ⟨c, hc, hlow⟩ := List.mem_map.1 hmem
  have hcd := eq_of_jsCharToLower_eq_low (by decide) hlow
  exact h (List.mem_of_mem_take (hcd ▸ hc))

theorem jsUrlParse_eq_none_of_no_colon {l : List Char} (h : ':' ∉ l) :
    jsUrlParse l = none := by
  rw [jsUrlParse, if_neg (not_lower_take_eq h (by decide)),
    if_neg (not_lower_take_eq h (by decide))]

theorem stripTrailingSlash_of_no_slash {l : List Char}
    (h : l.getLast? ≠ some '/') : stripTrailingSlash l = l := if_neg h

theorem getLast_jsToLower_ne_slash {l : List Char}
    (h : l.getLast? ≠ some '/') : (jsToLower l).getLast? ≠ some '/' := by
  intro hc
  rw [jsToLower, List.getLast?_map] at hc
  match hl : l.getLast? with
  | none => rw [hl] at hc; exact Option.noConfusion hc
  | some c =>
      rw [hl] at hc
      have hlow : jsCharToLower c = '/' := Option.some.inj hc
      exact h (hl.trans (congrArg some (eq_of_jsCharToLower_eq_low (by decide) hlow)))

theorem no_colon_jsToLower {l : List Char} (h : ':' ∉ l) : ':' ∉ jsToLower l := by
  intro hc
  obtain ⟨c, hcl, hlow⟩ := List.mem_map.1 hc
  exact h ((eq_of_jsCharToLower_eq_low (by decide) hlow) ▸ hcl)

theorem normalizeUrl_of_unparsed {l : List Char} (hcolon : ':' ∉ l)
    (hslash : l.getLast? ≠ some '/') : normalizeUrl l = jsToLower l := by
  rw [normalizeUrl, jsUrlParse_eq_none_of_no_colon hcolon]
  exact stripTrailingSlash_of_no_slash (getLast_jsToLower_ne_slash hslash)

/-- C4, counterexample: `normalizeUrl` is not idempotent.
`normalizeUrl("http://example.com") = "example.com/"` (root path restored to
"/"), but the second application does not parse as a URL and the fallback
strips the trailing slash, yielding `"example.com"`. -/
theorem c4_counterexample :
    normalizeUrlS (normalizeUrlS "http://example.com") ≠
      normalizeUrlS "http://example.com" ∧
    normalizeUrlS "http://example.com" = "example.com/" ∧
    normalizeUrlS (normalizeUrlS "http://example.com") = "example.com" := by
  decide

/-- C4, amended: normalization is not idempotent in general (a parsed root
URL normalizes to a slash-terminated key whose renormalization drops the
slash); it is idempotent on inputs the URL constructor rejects — any string
without a ':' (hence without a scheme) — that do not end in '/'. -/
theorem c4_amended_idempotent_on_unparsed (s : String) (hcolon : ':' ∉ s.data)
    (hslash : s.data.getLast? ≠ some '/') :
    normalizeUrlS (normalizeUrlS s) = normalizeUrlS s := by
  have h1 : normalizeUrl s.data = jsToLower s.data :=
    normalizeUrl_of_unparsed hcolon hslash
  have h2 : normalizeUrl (jsToLower s.data) = jsToLower (jsToLower s.data) :=
    normalizeUrl_of_unparsed (no_colon_jsToLower hcolon)
      (getLast_jsToLower_ne_slash hslash)
  show (⟨normalizeUrl (⟨normalizeUrl s.data⟩ : String).data⟩ : String) = _
  rw [h1]
  show (⟨normalizeUrl (jsToLower s.data)⟩ : String) = _
  rw [h2, jsToLower_idem]
  show _ = (⟨normalizeUrl s.data⟩ : String)
  rw [h1]

/-- C4, witness: idempotence of normalization at the scheme-free input
"example.com". -/
theorem c4_witness :
    ':' ∉ ("example.com" : String).data ∧
    ("example.com" : String).data.getLast? ≠ some '/' ∧
    normalizeUrlS (normalizeUrlS "example.com") = normalizeUrlS "example.com" :=
  ⟨by decide, by decide,
    c4_amended_idempotent_on_unparsed "example.com" (by decide) (by decide)⟩

/-! ### Association-list map and fold helpers -/

theorem foldl_preserve {α β : Type _} {P : β → Prop} {step : β → α → β}
    (hstep : ∀ m a, P m → P (step m a)) :
    ∀ (l : List α) (m : β), P m → P (l.foldl step m) := by
  intro l
  induction l with
  | nil => exact fun m hm => hm
  | cons a as ih => exact fun m hm => ih _ (hstep m a hm)

theorem mem_jsMapSet {α : Type _} {k : String} {v : α} {kv : String × α} :
    ∀ {m : List (String × α)}, kv ∈ jsMapSet m k v → kv ∈ m ∨ kv.snd = v := by
  intro m
  induction m with
  | nil =>
      intro h
      rw [jsMapSet] at h
      rcases List.mem_singleton.1 h with rfl
      exact Or.inr rfl
  | cons e rest ih =>
      obtain ⟨k', v'⟩ := e
      intro h
      rw [jsMapSet] at h
      by_cases hk : k' = k
      · rw [if_pos hk] at h
        rcases List.mem_cons.1 h with h1 | h1
        · exact Or.inr (by rw [h1])
        · exact Or.inl (List.mem_cons_of_mem _ h1)
      · rw [if_neg hk] at h
        rcases List.mem_cons.1 h with h1 | h1
        · exact Or.inl (h1 ▸ List.mem_cons_self _ _)
        · rcases ih h1 with h2 | h2
          · exact Or.inl (List.mem_cons_of_mem _ h2)
          · exact Or.inr h2

theorem jsMapGet_some_mem {α : Type _} {m : List (String × α)} {k : String}
    {v : α} (h : jsMapGet m k = some v) : ∃ k', (k', v) ∈ m := by
  rw [jsMapGet] at h
  cases hf : m.find? (fun e => e.fst == k) with
  | none => rw [hf] at h; exact Option.noConfusion h
  | some p =>
      rw [hf] at h
      refine ⟨p.fst, ?_⟩
      have hv : p.snd = v := Option.some.inj h
      have hp := List.mem_of_find?_eq_some hf
      rwa [← hv]

/-! ### C8 helpers: the frequency invariant is preserved by each merge -/

theorem insertResult_freq_inv {keyword : String} {r : SearchResult}
    {m : List (String × AggregatedUrl)}
    (hm : ∀ kv ∈ m, kv.snd.frequency = kv.snd.positions.length ∧
      kv.snd.positions.length = kv.snd.queries.length) :
    ∀ kv ∈ insertResult keyword m r,
      kv.snd.frequency = kv.snd.positions.length ∧
      kv.snd.positions.length = kv.snd.queries.length := by
  intro kv hkv
  simp only [insertResult] at hkv
  cases hg : jsMapGet m (normalizeUrlS r.link) with
  | some e =>
      rw [hg] at hkv
      rcases mem_jsMapSet hkv with h1 | h1
      · exact hm kv h1
      · obtain ⟨k', hk'⟩ := jsMapGet_some_mem hg
        have he : e.frequency = e.positions.length ∧
            e.positions.length = e.queries.length := hm (k', e) hk'
        rw [h1]
        simp [mergeOccurrence, he.1, he.2]
  | none =>
      rw [hg] at hkv
      rcases mem_jsMapSet hkv with h1 | h1
      · exact hm kv h1
      · rw [h1]
        simp [newAggregated]

theorem insertRedditResult_freq_inv {query : String} {ir : ℕ × RedditSearchResult}
    {m : List (String × AggregatedRedditUrl)}
    (hm : ∀ kv ∈ m, kv.snd.frequency = kv.snd.positions.length ∧
      kv.snd.positions.length = kv.snd.queries.length) :
    ∀ kv ∈ insertRedditResult query m ir,
      kv.snd.frequency = kv.snd.positions.length ∧
      kv.snd.positions.length = kv.snd.queries.length := by
  intro kv hkv
  simp only [insertRedditResult] at hkv
  cases hg : jsMapGet m (normalizeUrlS ir.snd.url) with
  | some e =>
      rw [hg] at hkv
      rcases mem_jsMapSet hkv with h1 | h1
      · exact hm kv h1
      · obtain ⟨k', hk'⟩ := jsMapGet_some_mem hg
        have he : e.frequency = e.positions.length ∧
            e.positions.length = e.queries.length := hm (k', e) hk'
        rw [h1]
        simp [mergeRedditOccurrence, he.1, he.2]
  | none =>
      rw [hg] at hkv
      rcases mem_jsMapSet hkv with h1 | h1
      · exact hm kv h1
      · rw [h1]
        simp [newRedditAggregated]

/-- C8: after every aggregation run — web and Reddit — every aggregated
record satisfies `frequency = positions.length = queries.length`. -/
theorem c8_frequency_invariant :
    (∀ (searches : List KeywordSearchResult) (kv : String × AggregatedUrl),
      kv ∈ aggregateResults searches →
      kv.snd.frequency = kv.snd.positions.length ∧
      kv.snd.positions.length = kv.snd.queries.length) ∧
    (∀ (searches : List (String × List RedditSearchResult))
        (kv : String × AggregatedRedditUrl),
      kv ∈ aggregateRedditResults searches →
      kv.snd.frequency = kv.snd.positions.length ∧
      kv.snd.positions.length = kv.snd.queries.length) := by
  constructor
  · intro searches
    have hall :
        ∀ kv ∈ aggregateResults searches,
          kv.snd.frequency = kv.snd.positions.length ∧
          kv.snd.positions.length = kv.snd.queries.length := by
      rw [aggregateResults]
      refine foldl_preserve
        (P := fun (m : List (String × AggregatedUrl)) => ∀ kv ∈ m,
          kv.snd.frequency = kv.snd.positions.length ∧
          kv.snd.positions.length = kv.snd.queries.length)
        ?_ searches [] (fun kv h => absurd h (List.not_mem_nil kv))
      intro m s hmP
      exact foldl_preserve
        (P := fun (m' : List (String × AggregatedUrl)) => ∀ kv ∈ m',
          kv.snd.frequency = kv.snd.positions.length ∧
          kv.snd.positions.length = kv.snd.queries.length)
        (fun m' a hm' => insertResult_freq_inv hm') s.results m hmP
    exact fun kv h => hall kv h
  · intro searches
    have hall :
        ∀ kv ∈ aggregateRedditResults searches,
          kv.snd.frequency = kv.snd.positions.length ∧
          kv.snd.positions.length = kv.snd.queries.length := by
      rw [aggregateRedditResults]
      refine foldl_preserve
        (P := fun (m : List (String × AggregatedRedditUrl)) => ∀ kv ∈ m,
          kv.snd.frequency = kv.snd.positions.length ∧
          kv.snd.positions.length = kv.snd.queries.length)
        ?_ searches [] (fun kv h => absurd h (List.not_mem_nil kv))
      intro m s hmP
      exact foldl_preserve
        (P := fun (m' : List (String × AggregatedRedditUrl)) => ∀ kv ∈ m',
          kv.snd.frequency = kv.snd.positions.length ∧
          kv.snd.positions.length = kv.snd.queries.length)
        (fun m' a hm' => insertRedditResult_freq_inv hm') s.snd.enum m hmP
    exact fun kv h => hall kv h

/-- C8, witness: the invariant at a concrete one-query aggregation. -/
theorem c8_witness :
    (⟨"example.com/", ⟨"http://example.com", "t", "s", 1, [1], ["q1"], 1, 100⟩⟩ :
        String × AggregatedUrl) ∈
      aggregateResults [⟨"q1", [⟨"t", "http://example.com", "s", none, 1⟩], 1, []⟩] ∧
    (1 : ℕ) = ([1] : List ℕ).length ∧ ([1] : List ℕ).length = (["q1"] : List String).length :=
  ⟨by decide,
    (c8_frequency_invariant.1
      [⟨"q1", [⟨"t", "http://example.com", "s", none, 1⟩], 1, []⟩]
      ⟨"example.com/", ⟨"http://example.com", "t", "s", 1, [1], ["q1"], 1, 100⟩⟩
      (by decide)).1,
    (c8_frequency_invariant.1
      [⟨"q1", [⟨"t", "http://example.com", "s", none, 1⟩], 1, []⟩]
      ⟨"example.com/", ⟨"http://example.com", "t", "s", 1, [1], ["q1"], 1, 100⟩⟩
      (by decide)).2⟩

/-! ### C1 helpers: every ranked record carries the hard-coded consensus flag -/

theorem rankFrom_mem {m : ℚ} :
    ∀ {l : List AggregatedUrl} {i : ℕ} {r : RankedUrl},
      r ∈ rankFrom m i l → ∃ j u, u ∈ l ∧ r = mkRanked m j u := by
  intro l
  induction l with
  | nil => intro i r h; exact absurd h (List.not_mem_nil r)
  | cons u us ih =>
      intro i r h
      rw [rankFrom] at h
      rcases List.mem_cons.1 h with h1 | h1
      · exact ⟨i, u, List.mem_cons_self _ _, h1⟩
      · obtain ⟨j, u', hu', hr⟩ := ih h1
        exact ⟨j, u', List.mem_cons_of_mem _ hu', hr⟩

theorem redditRankFrom_mem {m : ℚ} :
    ∀ {l : List AggregatedRedditUrl} {i : ℕ} {r : RankedRedditUrl},
      r ∈ redditRankFrom m i l → ∃ j u, u ∈ l ∧ r = mkRedditRanked m j u := by
  intro l
  induction l with
  | nil => intro i r h; exact absurd h (List.not_mem_nil r)
  | cons u us ih =>
      intro i r h
      rw [redditRankFrom] at h
      rcases List.mem_cons.1 h with h1 | h1
      · exact ⟨i, u, List.mem_cons_self _ _, h1⟩
      · obtain ⟨j, u', hu', hr⟩ := ih h1
        exact ⟨j, u', List.mem_cons_of_mem _ hu', hr⟩

theorem calculateWeightedScores_isConsensus {urls : List AggregatedUrl}
    {r : RankedUrl} (h : r ∈ calculateWeightedScores urls) :
    r.isConsensus = decide (3 ≤ r.frequency) := by
  rw [calculateWeightedScores] at h
  split at h
  · exact absurd h (List.not_mem_nil r)
  · obtain ⟨j, u, _, rfl⟩ := rankFrom_mem h
    simp [mkRanked]

theorem calculateRedditWeightedScores_isConsensus
    {urls : List AggregatedRedditUrl} {r : RankedRedditUrl}
    (h : r ∈ calculateRedditWeightedScores urls) :
    r.isConsensus = decide (2 ≤ r.frequency) := by
  rw [calculateRedditWeightedScores] at h
  split at h
  · exact absurd h (List.not_mem_nil r)
  · obtain ⟨j, u, _, rfl⟩ := redditRankFrom_mem h
    simp [mkRedditRanked]

theorem webThresholdFold_isConsensus
    (um : List (String × AggregatedUrl)) (mc : ℕ) :
    ∀ (ts : List ℕ) (acc : List RankedUrl),
      (∀ r ∈ acc, r.isConsensus = decide (3 ≤ r.frequency)) →
      ∀ r ∈ (webThresholdFold um mc ts acc).fst,
        r.isConsensus = decide (3 ≤ r.frequency) := by
  intro ts
  induction ts with
  | nil => intro acc hacc; exact hacc
  | cons t rest ih =>
      intro acc hacc
      rw [webThresholdFold]
      split
      · exact fun r hr => calculateWeightedScores_isConsensus hr
      · exact ih _ (fun r hr => calculateWeightedScores_isConsensus hr)

theorem redditThresholdFold_isConsensus
    (um : List (String × AggregatedRedditUrl)) (mc : ℕ) :
    ∀ (ts : List ℕ) (acc : List RankedRedditUrl),
      (∀ r ∈ acc, r.isConsensus = decide (2 ≤ r.frequency)) →
      ∀ r ∈ (redditThresholdFold um mc ts acc).fst,
        r.isConsensus = decide (2 ≤ r.frequency) := by
  intro ts
  induction ts with
  | nil => intro acc hacc; exact hacc
  | cons t rest ih =>
      intro acc hacc
      rw [redditThresholdFold]
      split
      · exact fun r hr => calculateRedditWeightedScores_isConsensus hr
      · exact ih _ (fun r hr => calculateRedditWeightedScores_isConsensus hr)

/-- C1, amended: `isConsensus` does not track the applied threshold — it is
hard-coded: every record ranked by `aggregateAndRank` has
`isConsensus = (frequency ≥ 3)` and every record ranked by
`aggregateAndRankReddit` has `isConsensus = (frequency ≥ 2)`, whatever
threshold the fallback actually applied.  The claimed equivalence
`isConsensus = frequency ≥ appliedThreshold` holds only when no fallback
occurred. -/
theorem c1_amended_consensus_flags :
    (∀ (searches : List KeywordSearchResult) (minC i : ℕ),
      i < (aggregateAndRank searches minC).rankedUrls.length →
      ((aggregateAndRank searches minC).rankedUrls.getD i default).isConsensus
        = decide (3 ≤
          ((aggregateAndRank searches minC).rankedUrls.getD i default).frequency)) ∧
    (∀ (searches : List (String × List RedditSearchResult)) (minC i : ℕ),
      i < (aggregateAndRankReddit searches minC).rankedUrls.length →
      ((aggregateAndRankReddit searches minC).rankedUrls.getD i default).isConsensus
        = decide (2 ≤
          ((aggregateAndRankReddit searches minC).rankedUrls.getD i
            default).frequency)) := by
  constructor
  · intro searches minC i hi
    have hmem : (aggregateAndRank searches minC).rankedUrls.getD i default ∈
        (aggregateAndRank searches minC).rankedUrls := by
      rw [List.getD_eq_getElem _ _ hi]
      exact List.getElem_mem hi
    exact webThresholdFold_isConsensus (aggregateResults searches) minC
      [3, 2, 1] [] (fun r' hr' => absurd hr' (List.not_mem_nil r')) _ hmem
  · intro searches minC i hi
    have hmem : (aggregateAndRankReddit searches minC).rankedUrls.getD i default ∈
        (aggregateAndRankReddit searches minC).rankedUrls := by
      rw [List.getD_eq_getElem _ _ hi]
      exact List.getElem_mem hi
    exact redditThresholdFold_isConsensus (aggregateRedditResults searches) minC
      [2, 1] [] (fun r' hr' => absurd hr' (List.not_mem_nil r')) _ hmem

/-- C1, witness: the amended statement at the counterexample input — the
single ranked record (frequency 1, accepted at fallback threshold 1) has
`isConsensus = decide (3 ≤ frequency) = false`. -/
theorem c1_witness :
    0 < (aggregateAndRank
        [⟨"q1", [⟨"t", "http://example.com", "s", none, 1⟩], 1, []⟩]
        5).rankedUrls.length ∧
    ((aggregateAndRank
        [⟨"q1", [⟨"t", "http://example.com", "s", none, 1⟩], 1, []⟩]
        5).rankedUrls.getD 0 default).isConsensus
      = decide (3 ≤ ((aggregateAndRank
          [⟨"q1", [⟨"t", "http://example.com", "s", none, 1⟩], 1, []⟩]
          5).rankedUrls.getD 0 default).frequency) :=
  ⟨by decide,
    c1_amended_consensus_flags.1
      [⟨"q1", [⟨"t", "http://example.com", "s", none, 1⟩], 1, []⟩] 5 0
      (by decide)⟩

/-! ### C9 helpers: sortedness and indexed ranking -/

theorem sortByScoreDesc_pairwise (l : List AggregatedUrl) :
    (sortByScoreDesc l).Pairwise (fun a b => b.totalScore ≤ a.totalScore) :=
  List.sorted_insertionSort _ l

theorem sortByScoreDesc_length (l : List AggregatedUrl) :
    (sortByScoreDesc l).length = l.length :=
  List.length_insertionSort _ l

theorem rankFrom_length (m : ℚ) :
    ∀ (l : List AggregatedUrl) (i : ℕ), (rankFrom m i l).length = l.length := by
  intro l
  induction l with
  | nil => intro i; rfl
  | cons u us ih => intro i; simp [rankFrom, ih]

theorem rankFrom_getD (m : ℚ) :
    ∀ (l : List AggregatedUrl) (i j : ℕ), j < l.length →
      (rankFrom m i l).getD j default = mkRanked m (i + j) (l.getD j default) := by
  intro l
  induction l with
  | nil => intro i j h; exact absurd h (by simp)
  | cons u us ih =>
      intro i j hj
      cases j with
      | zero => simp [rankFrom]
      | succ j' =>
          have hj' : j' < us.length := by simpa using hj
          simp only [rankFrom, List.getD_cons_succ]
          rw [ih (i + 1) j' hj']
          have harith : i + 1 + j' = i + (j' + 1) := by omega
          rw [harith]

theorem sorted_getD_le {l : List AggregatedUrl}
    (h : l.Pairwise (fun a b => b.totalScore ≤ a.totalScore)) {i j : ℕ}
    (hij : i < j) (hj : j < l.length) :
    (l.getD j default).totalScore ≤ (l.getD i default).totalScore := by
  rw [List.getD_eq_getElem _ _ hj, List.getD_eq_getElem _ _ (lt_trans hij hj)]
  exact List.pairwise_iff_getElem.1 h i j _ _ hij

/-- C9: in the output of `calculateWeightedScores`, whenever the record at
index `i` has a strictly greater `totalScore` than the one at index `j`
(indices taken in the sorted order the output is built from), the record at
`i` has a strictly smaller `rank` and a greater-or-equal normalized
`score`. -/
theorem c9_score_monotonicity (urls : List AggregatedUrl) (i j : ℕ)
    (hi : i < urls.length) (hj : j < urls.length)
    (h : ((sortByScoreDesc urls).getD j default).totalScore <
         ((sortByScoreDesc urls).getD i default).totalScore) :
    ((calculateWeightedScores urls).getD i default).rank <
      ((calculateWeightedScores urls).getD j default).rank ∧
    ((calculateWeightedScores urls).getD j default).score ≤
      ((calculateWeightedScores urls).getD i default).score := by
  have hne : urls ≠ [] := by
    intro he
    rw [he] at hi
    exact absurd hi (by simp)
  have hlen : (sortByScoreDesc urls).length = urls.length :=
    sortByScoreDesc_length urls
  have hij : i < j := by
    by_contra hle
    push_neg at hle
    rcases eq_or_lt_of_le hle with heq | hlt
    · rw [heq] at h
      exact lt_irrefl _ h
    · exact absurd (sorted_getD_le (sortByScoreDesc_pairwise urls) hlt
        (hlen ▸ hi)) (not_le.2 h)
  have hcalc : calculateWeightedScores urls =
      rankFrom ((sortByScoreDesc urls).headD default).totalScore 0
        (sortByScoreDesc urls) := by
    rw [calculateWeightedScores, if_neg hne]
  rw [hcalc, rankFrom_getD _ _ _ _ (hlen ▸ hi), rankFrom_getD _ _ _ _ (hlen ▸ hj)]
  constructor
  · simp [mkRanked]
    omega
  · by_cases hM : 0 < ((sortByScoreDesc urls).headD default).totalScore
    · simp only [mkRanked, if_pos hM]
      exact mul_le_mul_of_nonneg_right
        ((div_le_div_iff_of_pos_right hM).2 (le_of_lt h)) (by norm_num)
    · simp only [mkRanked]
      rw [if_neg hM, if_neg hM]

/-- C9, witness: two records with total scores 100 and 60. -/
theorem c9_witness :
    (0 : ℕ) < 2 ∧ (1 : ℕ) < 2 ∧
    ((sortByScoreDesc
        [⟨"u1", "t1", "s1", 3, [1], ["q"], 1, 100⟩,
         ⟨"u2", "t2", "s2", 1, [2], ["q"], 2, 60⟩]).getD 1 default).totalScore <
      ((sortByScoreDesc
        [⟨"u1", "t1", "s1", 3, [1], ["q"], 1, 100⟩,
         ⟨"u2", "t2", "s2", 1, [2], ["q"], 2, 60⟩]).getD 0 default).totalScore ∧
    (((calculateWeightedScores
        [⟨"u1", "t1", "s1", 3, [1], ["q"], 1, 100⟩,
         ⟨"u2", "t2", "s2", 1, [2], ["q"], 2, 60⟩]).getD 0 default).rank <
      ((calculateWeightedScores
        [⟨"u1", "t1", "s1", 3, [1], ["q"], 1, 100⟩,
         ⟨"u2", "t2", "s2", 1, [2], ["q"], 2, 60⟩]).getD 1 default).rank ∧
     ((calculateWeightedScores
        [⟨"u1", "t1", "s1", 3, [1], ["q"], 1, 100⟩,
         ⟨"u2", "t2", "s2", 1, [2], ["q"], 2, 60⟩]).getD 1 default).score ≤
      ((calculateWeightedScores
        [⟨"u1", "t1", "s1", 3, [1], ["q"], 1, 100⟩,
         ⟨"u2", "t2", "s2", 1, [2], ["q"], 2, 60⟩]).getD 0 default).score) :=
  ⟨by decide, by decide, by decide,
    c9_score_monotonicity
      [⟨"u1", "t1", "s1", 3, [1], ["q"], 1, 100⟩,
       ⟨"u2", "t2", "s2", 1, [2], ["q"], 2, 60⟩] 0 1
      (by decide) (by decide) (by decide)⟩

set_option maxRecDepth 2048 in
/-- C7: if the wrapped operation fails on the first attempt with an error
carrying HTTP status 401 (any message that is nonempty and contains no
timeout marker, so that the classifier reaches the status table), `withRetry`
performs exactly one attempt, invokes zero backoff sleeps, and returns the
classified non-retryable `AUTH_ERROR` — whatever attempt budget `opts`
allows. -/
theorem c7_auth_stops_immediately {T : Type}
    (fn : ℕ → Except (Option JsErrorValue) T) (opts : RetryOptions)
    (m : String) (hm : m ≠ "")
    (h1 : jsIncludes (jsToLowerS m) "timeout" = false)
    (h2 : jsIncludes (jsToLowerS m) "timed out" = false)
    (h0 : fn 0 = Except.error (some { message := some m, status := some 401 })) :
    withRetry fn opts =
      (RetryOutcome.failure ⟨"AUTH_ERROR", "Invalid API key", false, some 401, none⟩ 1,
       0) := by
  have hclass : classifyError (some { message := some m, status := some 401 }) =
      ⟨"AUTH_ERROR", "Invalid API key", false, some 401, none⟩ := by
    simp [classifyError, jsOrString, jsTruthyStatus, hm, h1, h2, classifyHttpError]
  rw [withRetry, withRetryGo, h0]
  simp [hclass]

/-- C7, witness: a wrapped operation that throws `{status: 401, message:
"Unauthorized"}` on every attempt, under the default retry options. -/
theorem c7_witness :
    withRetry (T := ℕ)
      (fun _ => Except.error
        (some { message := some "Unauthorized", status := some 401 }))
      DEFAULT_RETRY_OPTIONS =
      (RetryOutcome.failure ⟨"AUTH_ERROR", "Invalid API key", false, some 401, none⟩ 1,
       0) :=
  c7_auth_stops_immediately
    (fun _ => Except.error
      (some { message := some "Unauthorized", status := some 401 }))
    DEFAULT_RETRY_OPTIONS "Unauthorized" (by decide) (by decide) (by decide) rfl

/-! ### C6 helpers: the batch loop is one fold of `jsMapSet` over all urls -/

theorem jsMapGet_cons {α : Type _} (k' : String) (v' : α)
    (rest : List (String × α)) (k : String) :
    jsMapGet ((k', v') :: rest) k = if k' = k then some v' else jsMapGet rest k := by
  by_cases h : k' = k
  · simp [jsMapGet, List.find?_cons_of_pos, h]
  · simp [jsMapGet, List.find?_cons_of_neg, h]

theorem jsMapGet_jsMapSet_self {α : Type _} (k : String) (v : α) :
    ∀ (m : List (String × α)), jsMapGet (jsMapSet m k v) k = some v := by
  intro m
  induction m with
  | nil => simp [jsMapSet, jsMapGet_cons, jsMapGet]
  | cons e rest ih =>
      obtain ⟨k', v'⟩ := e
      rw [jsMapSet]
      by_cases h : k' = k
      · rw [if_pos h, jsMapGet_cons, if_pos h]
      · rw [if_neg h, jsMapGet_cons, if_neg h]
        exact ih

theorem jsMapGet_jsMapSet_other {α : Type _} {k' k : String} (h : k' ≠ k) (v : α) :
    ∀ (m : List (String × α)), jsMapGet (jsMapSet m k' v) k = jsMapGet m k := by
  intro m
  induction m with
  | nil => simp [jsMapSet, jsMapGet_cons, jsMapGet, h]
  | cons e rest ih =>
      obtain ⟨ke, ve⟩ := e
      rw [jsMapSet]
      by_cases he : ke = k'
      · rw [if_pos he, jsMapGet_cons, jsMapGet_cons]
        subst he
        rw [if_neg h, if_neg h]
      · rw [if_neg he, jsMapGet_cons, jsMapGet_cons]
        by_cases hk : ke = k
        · rw [if_pos hk, if_pos hk]
        · rw [if_neg hk, if_neg hk]
          exact ih

theorem get_foldl_set_not_mem (g : String → Except String PostResult) :
    ∀ (l : List String) (m : List (String × Except String PostResult))
      (u : String), u ∉ l →
      jsMapGet (l.foldl (fun m' u' => jsMapSet m' u' (g u')) m) u = jsMapGet m u := by
  intro l
  induction l with
  | nil => intro m u _; rfl
  | cons x xs ih =>
      intro m u hu
      have hux : u ≠ x := fun he => hu (by rw [he]; exact List.mem_cons_self _ _)
      have hxs : u ∉ xs := fun hm => hu (List.mem_cons_of_mem _ hm)
      rw [List.foldl_cons, ih _ u hxs, jsMapGet_jsMapSet_other (Ne.symm hux)]

theorem get_foldl_set_mem (g : String → Except String PostResult) :
    ∀ (l : List String) (m : List (String × Except String PostResult))
      (u : String), u ∈ l →
      jsMapGet (l.foldl (fun m' u' => jsMapSet m' u' (g u')) m) u = some (g u) := by
  intro l
  induction l with
  | nil => intro m u hu; exact absurd hu (List.not_mem_nil u)
  | cons x xs ih =>
      intro m u hu
      by_cases hx : u ∈ xs
      · exact ih _ u hx
      · have hux : u = x := by
          rcases List.mem_cons.1 hu with h | h
          · exact h
          · exact absurd h hx
        subst hux
        rw [List.foldl_cons, get_foldl_set_not_mem g xs _ u hx,
          jsMapGet_jsMapSet_self]

theorem jsMapSet_length_of_get_none {α : Type _} {k : String} (v : α) :
    ∀ {m : List (String × α)}, jsMapGet m k = none →
      (jsMapSet m k v).length = m.length + 1 := by
  intro m
  induction m with
  | nil => intro _; rfl
  | cons e rest ih =>
      obtain ⟨ke, ve⟩ := e
      intro h
      rw [jsMapGet_cons] at h
      by_cases he : ke = k
      · rw [if_pos he] at h
        exact absurd h (Option.some_ne_none ve)
      · rw [if_neg he] at h
        rw [jsMapSet, if_neg he]
        simp [ih h]

theorem length_foldl_set_nodup (g : String → Except String PostResult) :
    ∀ (l : List String) (m : List (String × Except String PostResult)),
      l.Nodup → (∀ u ∈ l, jsMapGet m u = none) →
      (l.foldl (fun m' u' => jsMapSet m' u' (g u')) m).length =
        m.length + l.length := by
  intro l
  induction l with
  | nil => intro m _ _; rfl
  | cons x xs ih =>
      intro m hnd hnone
      rw [List.foldl_cons,
        ih _ (List.nodup_cons.1 hnd).2
          (fun u hu => by
            rw [jsMapGet_jsMapSet_other
              (fun he => (List.nodup_cons.1 hnd).1 (by rw [he]; exact hu))]
            exact hnone u (List.mem_cons_of_mem _ hu)),
        jsMapSet_length_of_get_none _ (hnone x (List.mem_cons_self _ _))]
      simp [List.length_cons]
      omega

theorem chunkFuel_flatten {α : Type _} (n : ℕ) :
    ∀ (fuel : ℕ) (l : List α), l.length ≤ fuel →
      (chunkFuel n fuel l).flatten = l := by
  intro fuel
  induction fuel with
  | zero =>
      intro l hl
      have : l = [] := List.eq_nil_of_length_eq_zero (by omega)
      subst this
      rfl
  | succ k ih =>
      intro l hl
      cases l with
      | nil => rfl
      | cons x xs =>
          rw [chunkFuel]
          simp only [List.flatten_cons]
          rw [ih (xs.drop (n - 1)) (by simp [List.length_drop] at *; omega)]
          simp [List.take_append_drop]

theorem chunkList_flatten {α : Type _} (n : ℕ) (l : List α) :
    (chunkList n l).flatten = l :=
  chunkFuel_flatten n l.length l le_rfl

theorem settleBatch_fst (g : String → Except String PostResult) :
    ∀ (batch : List String) (st : List (String × Except String PostResult) × ℕ),
      (settleBatch g st batch).fst =
        batch.foldl (fun m u => jsMapSet m u (g u)) st.fst := by
  intro batch
  induction batch with
  | nil => intro st; rfl
  | cons u us ih =>
      intro st
      rw [settleBatch, List.map_cons, List.foldl_cons, ← settleBatch, ih,
        List.foldl_cons]
      congr 1
      cases g u <;> rfl

theorem batch_fold_fst (g : String → Except String PostResult) :
    ∀ (chunks : List (List String))
      (st : List (String × Except String PostResult) × ℕ),
      ((chunks.foldl (settleBatch g) st).fst) =
        chunks.flatten.foldl (fun m u => jsMapSet m u (g u)) st.fst := by
  intro chunks
  induction chunks with
  | nil => intro st; rfl
  | cons c cs ih =>
      intro st
      rw [List.foldl_cons, ih, List.flatten_cons, List.foldl_append, settleBatch_fst]

theorem batchGetPosts_results (g : String → Except String PostResult)
    (urls : List String) :
    (batchGetPosts g urls).results =
      urls.foldl (fun m u => jsMapSet m u (g u)) [] := by
  show ((chunkList 10 urls).foldl (settleBatch g) ([], 0)).fst = _
  rw [batch_fold_fst, chunkList_flatten]

/-- C6: for every target list and per-target outcome, `batchGetPosts`
attempts every target (the batch groups partition the url list) and records
one outcome per target in the result map: each url maps to exactly the
settled outcome of its own call, so one target's failure cannot alter a
sibling's entry; with distinct targets the map holds one entry per
target. -/
theorem c6_batch_isolation (g : String → Except String PostResult)
    (urls : List String) :
    (∀ u ∈ urls, jsMapGet (batchGetPosts g urls).results u = some (g u)) ∧
    (urls.Nodup → (batchGetPosts g urls).results.length = urls.length) ∧
    (batchGetPosts g urls).totalPosts = urls.length ∧
    (chunkList 10 urls).flatten = urls := by
  refine ⟨?_, ?_, rfl, chunkList_flatten 10 urls⟩
  · intro u hu
    rw [batchGetPosts_results]
    exact get_foldl_set_mem g urls [] u hu
  · intro hnd
    rw [batchGetPosts_results]
    have h := length_foldl_set_nodup g urls [] hnd (fun u _ => rfl)
    simpa using h

/-- C6, witness: a 10-target batch in which only target "u4" fails — its
entry is the recorded failure, target "u1" keeps its success, the map has
10 entries, 9 successes and exactly 1 failure. -/
theorem c6_witness :
    jsMapGet (batchGetPosts
        (fun u => if u = "u4" then Except.error "boom" else Except.ok default)
        ["u1", "u2", "u3", "u4", "u5", "u6", "u7", "u8", "u9", "u10"]).results
        "u4" =
      some ((fun u => if u = "u4" then Except.error "boom" else Except.ok default)
        "u4") ∧
    ((["u1", "u2", "u3", "u4", "u5", "u6", "u7", "u8", "u9", "u10"] :
        List String).Nodup →
      (batchGetPosts
        (fun u => if u = "u4" then Except.error "boom" else Except.ok default)
        ["u1", "u2", "u3", "u4", "u5", "u6", "u7", "u8", "u9", "u10"]).results.length
        = 10) ∧
    (batchGetPosts
        (fun u => if u = "u4" then Except.error "boom" else Except.ok default)
        ["u1", "u2", "u3", "u4", "u5", "u6", "u7", "u8", "u9", "u10"]).results.countP
        (fun e => e.snd.isOk) = 9 ∧
    (batchGetPosts
        (fun u => if u = "u4" then Except.error "boom" else Except.ok default)
        ["u1", "u2", "u3", "u4", "u5", "u6", "u7", "u8", "u9", "u10"]).results.countP
        (fun e => !e.snd.isOk) = 1 :=
  ⟨(c6_batch_isolation
      (fun u => if u = "u4" then Except.error "boom" else Except.ok default)
      ["u1", "u2", "u3", "u4", "u5", "u6", "u7", "u8", "u9", "u10"]).1 "u4"
      (by decide),
   (c6_batch_isolation
      (fun u => if u = "u4" then Except.error "boom" else Except.ok default)
      ["u1", "u2", "u3", "u4", "u5", "u6", "u7", "u8", "u9", "u10"]).2.1,
   by decide, by decide⟩

/-! ### C10 helper: the budget bound is an invariant of the walk -/

theorem extractWalk_length_le (maxComments : ℕ) (opAuthor : String) :
    ∀ (n : ℕ) (items : List RTree), sizeOf items ≤ n →
      ∀ (depth : ℕ) (result : List Comment), result.length ≤ maxComments →
      (extractWalk maxComments opAuthor items depth result).length ≤ maxComments := by
  intro n
  induction n with
  | zero =>
      intro items hsz
      exfalso
      cases items with
      | nil => simp at hsz
      | cons c cs => simp at hsz
  | succ n ih =>
      intro items hsz depth result hres
      cases items with
      | nil => rw [extractWalk.eq_def]; exact hres
      | cons c rest =>
          obtain ⟨kind, author, body, s, replies⟩ := c
          have hszrest : sizeOf rest ≤ n := by
            simp at hsz
            omega
          have hszrep : sizeOf (sortTreesByScore replies) ≤ n := by
            have hperm := List.Perm.sizeOf_eq_sizeOf
              (List.perm_insertionSort
                (fun a b => RTree.score b ≤ RTree.score a) replies)
            rw [sortTreesByScore, hperm]
            simp at hsz
            omega
          rw [extractWalk.eq_def]
          dsimp only
          by_cases hfull : maxComments ≤ result.length
          · rw [if_pos hfull]
            exact hres
          · rw [if_neg hfull]
            by_cases hskip : (!kind == "t1" || author == none || author == some ""
                || author == some "[deleted]") = true
            · rw [if_pos hskip]
              exact ih rest hszrest depth result hres
            · rw [if_neg hskip]
              apply ih rest hszrest depth
              split
              next hcond => exact ih _ hszrep _ _ (le_of_lt hcond.2)
              next hcond =>
                have hlt : result.length < maxComments := Nat.lt_of_not_le hfull
                simp [List.length_append]
                omega

/-- C10: for every comment forest, OP author and budget, `extractComments`
returns at most `maxComments` comments — the cap is one global budget across
all recursion depths. -/
theorem c10_global_comment_cap (children : List RTree) (maxComments : ℕ)
    (opAuthor : String) :
    (extractComments children maxComments opAuthor).length ≤ maxComments := by
  rw [extractComments]
  exact extractWalk_length_le maxComments opAuthor
    (sizeOf (sortTreesByScore children)) _ le_rfl 0 [] (by simp)

/-- C2, counterexample: with zero input queries `aggregateAndRank` does not
keep the strictest threshold 3 and does attach a note — the fallback loop
walks down to threshold 1 (its `threshold === 1` break) and the `< 3` check
then attaches the diversity note. -/
theorem c2_counterexample :
    (aggregateAndRank [] 5).frequencyThreshold ≠ 3 ∧
    (aggregateAndRank [] 5).thresholdNote ≠ none := by
  decide

/-- C2, amended: with zero input queries `aggregateAndRank` returns an empty
ranked list, the returned `frequencyThreshold` is the loosest value 1, and a
`thresholdNote` is attached. -/
theorem c2_amended_zero_queries :
    (aggregateAndRank [] 5).rankedUrls = [] ∧
    (aggregateAndRank [] 5).frequencyThreshold = 1 ∧
    (aggregateAndRank [] 5).thresholdNote = some (thresholdNoteText 1) := by
  decide

/-- C3, evaluation at the failing input: one URL occurring at positions
5, 2, 3 (titles "t5", "t2", "t3").  The third occurrence (position 3)
overwrites the stored metadata because `3 < positions[0] = 5`, although
position 2 — the best position — was already recorded: the final record has
`title = "t3"` while `bestPosition = 2`, so the metadata is not the one of
the best-positioned occurrence. -/
theorem c3_code_bug_eval :
    (aggregateResults
      [⟨"q1", [⟨"t5", "http://example.com/a", "s5", none, 5⟩], 1, []⟩,
       ⟨"q2", [⟨"t2", "http://example.com/a", "s2", none, 2⟩], 1, []⟩,
       ⟨"q3", [⟨"t3", "http://example.com/a", "s3", none, 3⟩], 1, []⟩]).map
      (fun e => (e.snd.title, e.snd.snippet, e.snd.bestPosition, e.snd.positions)) =
    [("t3", "s3", 2, [5, 2, 3])] := by
  decide

/-- C1, counterexample: a single query with a single URL makes the threshold
fall back to 1; the record's `frequency` (1) then meets the applied
threshold, yet `isConsensus` is `false` because the code hard-codes the
cut-off at 3. -/
theorem c1_counterexample :
    (aggregateAndRank [⟨"q1", [⟨"t", "http://example.com", "s", none, 1⟩], 1, []⟩]
        5).frequencyThreshold = 1 ∧
    (aggregateAndRank [⟨"q1", [⟨"t", "http://example.com", "s", none, 1⟩], 1, []⟩]
        5).rankedUrls.map (fun r => (r.frequency, r.isConsensus)) = [(1, false)] := by
  decide

/-- C5, counterexample: `calculateCommentAllocation 0` has no zero-target
guard — the JS division by zero makes `perPostBase` infinite instead of the
claimed full budget (1000). -/
theorem c5_counterexample :
    (calculateCommentAllocation 0).perPostBase = ⊤ ∧
    (calculateCommentAllocation 0).perPostBase ≠ ((1000 : ℕ) : ℕ∞) := by
  constructor
  · rfl
  · simp [calculateCommentAllocation]

/-- C5, amended: for `targetCount ≥ 1` the comment allocator returns
`base = ⌊1000 / targetCount⌋` and `capped = min base 200`, and the token
allocator returns `⌊32000 / urlCount⌋` (no per-target cap exists for
tokens); `calculateTokenAllocation` alone guards a zero target count by
returning the full 32000 budget; the boundary values are
`calculateTokenAllocation 50 = 640` and `calculateTokenAllocation 3 =
10666`. -/
theorem c5_amended_allocation (n : ℕ) (h : 1 ≤ n) :
    (calculateCommentAllocation n).perPostBase = ((1000 / n : ℕ) : ℕ∞) ∧
    (calculateCommentAllocation n).perPostCapped = min ((1000 / n : ℕ) : ℕ∞) 200 ∧
    calculateTokenAllocation n = 32000 / n ∧
    calculateTokenAllocation 0 = 32000 ∧
    calculateTokenAllocation 50 = 640 ∧
    calculateTokenAllocation 3 = 10666 := by
  have hn : n ≠ 0 := by omega
  refine ⟨?_, ?_, ?_, by decide, by decide, by decide⟩ <;>
    simp [calculateCommentAllocation, calculateTokenAllocation, hn]

/-- C5, witness: the amended allocation statement instantiated at 50
targets. -/
theorem c5_witness :
    1 ≤ 50 ∧
    ((calculateCommentAllocation 50).perPostBase = ((1000 / 50 : ℕ) : ℕ∞) ∧
     (calculateCommentAllocation 50).perPostCapped =
       min ((1000 / 50 : ℕ) : ℕ∞) 200 ∧
     calculateTokenAllocation 50 = 32000 / 50 ∧
     calculateTokenAllocation 0 = 32000 ∧
     calculateTokenAllocation 50 = 640 ∧
     calculateTokenAllocation 3 = 10666) :=
  ⟨by decide, c5_amended_allocation 50 (by decide)⟩

end VibeSpec
